import Mathlib

/-!
Shallow embedding of the AgenticOmni upload/quota/segmentation core, translated
from the repository sources:

* `src/ingestion_parsing/storage/quota_manager.py` (QuotaManager)
* `src/ingestion_parsing/services/upload_service.py` (UploadService.upload_file,
  UploadService.merge_chunks)
* `src/api/routes/documents.py` (init_resumable_upload, upload_chunk)
* `src/storage_indexing/repositories/upload_session_repository.py`
* `src/ingestion_parsing/tasks/cleanup_tasks.py` (_cleanup_expired_sessions_async)
* `src/ingestion_parsing/services/chunking_service.py` (ChunkingService)

Conventions: Python ints are `Int` (or `Nat` where the source value is a length
or count that is always non-negative); the per-tenant database row is an
`Option Tenant` (the row for the tenant under consideration, `none` when the
tenant does not exist); byte payloads are `List Nat`; text is `List Char`.
External collaborators (SQLAlchemy, the filesystem, tiktoken, libmagic,
ClamAV, SHA-256) are modelled by explicit state passing, an identity
character-level tokenizer, a boolean validation oracle and a hash-function
parameter respectively.
-/

/-! ## Quota ledger (quota_manager.py) -/

/-- One row of the `tenants` table as read by `QuotaManager`
(`storage_used_bytes`, `storage_quota_bytes`).  The field `reservedBytes` is
modelled from the spec: the spec's quota ledger keeps a per-tenant reserved
counter (`QuotaReservation`), but the code's `Tenant` table has no such column
and no operation below ever modifies it; it is carried so that claims about
reservations can be stated against the code. -/
structure Tenant where
  storage_used_bytes : Int
  storage_quota_bytes : Int
  reservedBytes : Nat
deriving DecidableEq, Repr

/-- Errors raised by `QuotaManager`: `QuotaExceededError(used_bytes,
quota_bytes)` and the `ValueError` for an unknown tenant (also standing in for
`scalar_one`'s no-row error in `update_usage`). -/
inductive QuotaError where
  | quotaExceeded (usedBytes quotaBytes : Int)
  | valueError
deriving DecidableEq, Repr

/-- `QuotaManager.check_quota(tenant_id, file_size)`: reads the tenant row,
raises `ValueError` if missing, raises `QuotaExceededError` when
`used_bytes + file_size > quota_bytes`, otherwise returns `True`.  The second
component is the database state after the call (the call only executes a
SELECT, so it is returned unchanged on every path). -/
def checkQuota (db : Option Tenant) (fileSize : Int) :
    Except QuotaError Bool × Option Tenant :=
  match db with
  | none => (.error .valueError, none)
  | some t =>
    if t.storage_quota_bytes < t.storage_used_bytes + fileSize then
      (.error (.quotaExceeded t.storage_used_bytes t.storage_quota_bytes), some t)
    else
      (.ok true, some t)

/-- `QuotaManager.update_usage(tenant_id, size_delta)`: unconditionally adds
`size_delta` to `storage_used_bytes` and returns the new usage
(`scalar_one` raises when the tenant row is missing). -/
def updateUsage (db : Option Tenant) (sizeDelta : Int) :
    Except QuotaError Int × Option Tenant :=
  match db with
  | none => (.error .valueError, none)
  | some t =>
    let newUsage := t.storage_used_bytes + sizeDelta
    (.ok newUsage, some { t with storage_used_bytes := newUsage })

/-- One whole upload flow for a file of the given size, as performed by
`UploadService.upload_file`: `validate_upload` calls `check_quota`; if it
raises, the flow aborts with no quota mutation; otherwise, after the
(quota-neutral) storage and repository steps, `update_usage` adds the same
`file_size`. -/
def runUploadFlow (db : Option Tenant) (size : Int) : Option Tenant :=
  match (checkQuota db size).1 with
  | .error _ => (checkQuota db size).2
  | .ok _ => (updateUsage (checkQuota db size).2 size).2

/-- The tenant-level quota invariant of the claim:
`used_bytes + sum(active reservations) <= quota_bytes`, together with the fact
(true of every state the code can produce) that the reservation sum is zero. -/
def quotaInvariant : Option Tenant → Prop
  | none => True
  | some t =>
      t.storage_used_bytes + (t.reservedBytes : Int) ≤ t.storage_quota_bytes ∧
      t.reservedBytes = 0

/-! ### Fine-grained interleaving of upload flows

`upload_file` runs `check_quota` and `update_usage` as two separate database
operations with no reservation or lock between them, so two concurrent upload
flows for the same tenant may interleave their check and update steps.  A
flow is in one of three phases: not yet checked, checked successfully (update
still pending), or done (either finished or aborted by a failed check). -/

structure FlowSt where
  size : Int
  checked : Bool
  done : Bool
deriving DecidableEq, Repr

/-- A scheduler action: run flow `i`'s `check_quota` step, or its
`update_usage` step. -/
inductive FlowAct where
  | check (i : Nat)
  | update (i : Nat)
deriving DecidableEq, Repr

/-- One interleaving step.  `none` marks an invalid schedule (an action that
the flow's own program order forbids: checking twice, updating before a
successful check, or acting on a finished flow). -/
def stepFlow (s : Option Tenant × List FlowSt) (a : FlowAct) :
    Option (Option Tenant × List FlowSt) :=
  match a with
  | .check i =>
    match s.2.get? i with
    | none => none
    | some f =>
      if f.checked ∨ f.done then none
      else
        match checkQuota s.1 f.size with
        | (.ok _, db') => some (db', s.2.set i { f with checked := true })
        | (.error _, db') => some (db', s.2.set i { f with done := true })
  | .update i =>
    match s.2.get? i with
    | none => none
    | some f =>
      if f.checked ∧ ¬f.done then
        some ((updateUsage s.1 f.size).2, s.2.set i { f with done := true })
      else none

/-- Run a schedule of interleaved upload-flow steps. -/
def runSched (init : Option Tenant × List FlowSt) (acts : List FlowAct) :
    Option (Option Tenant × List FlowSt) :=
  acts.foldlM stepFlow init

/-! ## Claims C1, C2, C10 -/

/-- C1, counterexample.  The claim asserts that every sequence of quota
operations performed by the upload flows keeps
`used_bytes + sum(active reservations) <= quota_bytes` in every reachable
state.  Two concurrent upload flows of 10 bytes each against a tenant with
`used = 0`, `quota = 10` can interleave as check/check/update/update; both
checks pass (nothing is reserved by `check_quota`), both updates then run, and
the tenant ends at `used_bytes = 20 > 10 = quota_bytes`.  Every step below
respects each flow's own program order (`update_usage` runs only after that
flow's successful `check_quota`), so this is a state reachable by the upload
flows, and it violates the claimed invariant. -/
theorem c1_interleaved_counterexample :
    runSched (some ⟨0, 10, 0⟩, [⟨10, false, false⟩, ⟨10, false, false⟩])
        [.check 0, .check 1, .update 0, .update 1] =
      some (some ⟨20, 10, 0⟩, [⟨10, true, true⟩, ⟨10, true, true⟩]) ∧
    ¬ quotaInvariant (some ⟨20, 10, 0⟩) := by
  constructor
  · rfl
  · intro h
    exact absurd h.1 (by decide)

/-- C1, amended.  When the upload flows are serialized (each flow's
`check_quota` and `update_usage` run back to back with no other quota
operation in between), every reachable state satisfies
`used_bytes + sum(active reservations) <= quota_bytes`: `check_quota` admits a
file only when `used + size <= quota`, `update_usage` then adds exactly that
size, and the reservation sum is identically zero because the code never
creates a reservation. -/
theorem c1_serialized_invariant (sizes : List Int) (db : Option Tenant)
    (h : quotaInvariant db) : quotaInvariant (sizes.foldl runUploadFlow db) := by
  induction sizes generalizing db with
  | nil => exact h
  | cons s rest ih =>
    apply ih
    cases db with
    | none => simp [runUploadFlow, checkQuota, quotaInvariant]
    | some t =>
      simp only [runUploadFlow, checkQuota]
      by_cases hq : t.storage_quota_bytes < t.storage_used_bytes + s
      · simpa [hq] using h
      · obtain ⟨h1, h2⟩ := h
        simp only [if_neg hq, updateUsage, quotaInvariant]
        refine ⟨?_, h2⟩
        rw [h2] at h1 ⊢
        omega

/-- C1 witness: the serialized invariant applied to two concrete uploads of 5
and 3 bytes against a tenant with quota 10. -/
theorem c1_serialized_invariant_witness :
    quotaInvariant ([5, 3].foldl runUploadFlow (some ⟨0, 10, 0⟩)) :=
  c1_serialized_invariant [5, 3] (some ⟨0, 10, 0⟩) ⟨by decide, rfl⟩

/-- C2, counterexample.  The claim asserts that on success `check_quota`
increments the tenant's reserved counter.  At a tenant with `used = 0`,
`quota = 10` and reservation sum 0, `check_quota` for 5 bytes succeeds and
returns the database completely unchanged: the reserved counter afterwards is
0, not 0 + 5, so no counter was incremented. -/
theorem c2_no_reservation_counterexample :
    (checkQuota (some ⟨0, 10, 0⟩) 5).1 = .ok true ∧
    (checkQuota (some ⟨0, 10, 0⟩) 5).2 = some ⟨0, 10, 0⟩ ∧
    (0 : Nat) ≠ 0 + 5 := by
  refine ⟨rfl, rfl, by decide⟩

/-- C2, amended.  `check_quota(tenant, bytes)` succeeds returning `True` if
and only if `used_bytes + bytes <= quota_bytes` (there is no reserved counter,
so nothing is added to the check), otherwise it raises
`QuotaExceededError`; for an unknown tenant it raises `ValueError`; and it
never mutates the database. -/
theorem c2_check_quota_iff (t : Tenant) (fs : Int) :
    ((checkQuota (some t) fs).1 = .ok true ↔
      t.storage_used_bytes + fs ≤ t.storage_quota_bytes) ∧
    (t.storage_quota_bytes < t.storage_used_bytes + fs →
      (checkQuota (some t) fs).1 =
        .error (.quotaExceeded t.storage_used_bytes t.storage_quota_bytes)) ∧
    (checkQuota (some t) fs).2 = some t ∧
    (checkQuota none fs).1 = .error .valueError := by
  refine ⟨?_, ?_, ?_, rfl⟩
  · constructor
    · intro h
      by_contra hq
      simp [checkQuota, if_pos (by omega : t.storage_quota_bytes <
        t.storage_used_bytes + fs)] at h
    · intro h
      simp [checkQuota, if_neg (by omega : ¬ t.storage_quota_bytes <
        t.storage_used_bytes + fs)]
  · intro h
    simp [checkQuota, if_pos h]
  · by_cases hq : t.storage_quota_bytes < t.storage_used_bytes + fs <;>
      simp [checkQuota, hq]

/-- C2 witness: the amended characterization applied at a concrete tenant
(`used = 0`, `quota = 10`) and file size 5, discharging the success direction
of the iff and the error implication's (vacuous) hypothesis. -/
theorem c2_check_quota_iff_witness :
    (checkQuota (some ⟨0, 10, 0⟩) 5).1 = .ok true := by
  exact (c2_check_quota_iff ⟨0, 10, 0⟩ 5).1.mpr (by decide)

/-- C10: `check_quota` is side-effect free.  Whatever the outcome — `True`,
`QuotaExceededError`, or `ValueError` for a missing tenant — the database
state it returns is exactly the state it was given: `storage_used_bytes` and
`storage_quota_bytes` are untouched and no counter of any kind changes. -/
theorem c10_check_quota_pure (db : Option Tenant) (fs : Int) :
    (checkQuota db fs).2 = db := by
  cases db with
  | none => rfl
  | some t =>
    by_cases hq : t.storage_quota_bytes < t.storage_used_bytes + fs <;>
      simp [checkQuota, hq]

/-! ## Resumable upload sessions (documents.py, upload_service.py,
upload_session_repository.py) -/

/-- An `upload_sessions` row, restricted to the columns the chunk-submission
flow reads or writes.  Statuses are the code's strings: "pending",
"uploading", "complete", "cancelled", "expired" (the spec's `receiving`
corresponds to the code's "uploading"). -/
structure UploadSessionRec where
  status : String
  uploadedSizeBytes : Nat
  totalSizeBytes : Nat
  chunkSizeBytes : Nat
  expiresAt : Nat
deriving DecidableEq, Repr

/-- The chunk directory `upload_dir/tmp/<session_id>` as a map from chunk
number to the stored bytes. -/
abbrev ChunkStore := List (Nat × List Nat)

/-- Writing `chunk_dir / f"chunk_{k}"`: overwrites the file for chunk `k` if
present, otherwise creates it. -/
def setChunk (store : ChunkStore) (k : Nat) (v : List Nat) : ChunkStore :=
  if store.any (fun p => p.1 = k) then
    store.map (fun p => if p.1 = k then (k, v) else p)
  else
    store ++ [(k, v)]

/-- Reading `chunk_dir / f"chunk_{k}"` (`none` when the file does not exist). -/
def lookupChunk (store : ChunkStore) (k : Nat) : Option (List Nat) :=
  (store.find? (fun p => p.1 = k)).map (fun p => p.2)

/-- Errors raised by `UploadService.merge_chunks`: missing chunk files, or a
content-hash mismatch when an expected hash was supplied. -/
inductive MergeError where
  | missingChunks (missing : List Nat)
  | hashMismatch
deriving DecidableEq, Repr

/-- `UploadService.merge_chunks(session_id, chunk_dir, num_chunks,
expected_hash)`: verifies that chunk files `0 .. num_chunks-1` all exist
(raising `ValueError` listing the missing indices otherwise), concatenates
them in index order, and — only when `expected_hash` is supplied — compares
the computed digest (`hashFn` stands for SHA-256) against it.  Note that the
function neither receives nor checks the session's declared
`total_size_bytes`. -/
def mergeChunks (hashFn : List Nat → Nat) (store : ChunkStore)
    (numChunks : Nat) (expectedHash : Option Nat) :
    Except MergeError (List Nat) :=
  let missing := (List.range numChunks).filter (fun i => lookupChunk store i = none)
  if missing ≠ [] then
    .error (.missingChunks missing)
  else
    let merged := (List.range numChunks).foldl
      (fun acc i => acc ++ (lookupChunk store i).getD []) []
    match expectedHash with
    | some h => if hashFn merged = h then .ok merged else .error .hashMismatch
    | none => .ok merged

/-- The state a chunk submission acts on: the session row, its chunk
directory, and the owning tenant's quota row. -/
structure UploadChunkState where
  session : UploadSessionRec
  chunkStore : ChunkStore
  tenant : Option Tenant
deriving DecidableEq

/-- The observable outcome of one `PATCH /upload/resumable/{session_id}`
call: the 410 rejection for a closed session, the partial-progress response,
the completion response, or the exception paths of the merge/final-upload
stage. -/
inductive UploadOutcome where
  | sessionGone (status : String)
  | uploading (uploadedBytes : Nat)
  | complete
  | mergeFailed
  | uploadFailed
deriving DecidableEq, Repr

/-- The `upload_chunk` route handler, from after the Content-Range header has
been parsed into `start` and the body read into `payload` (the handler never
consults the clock or `expires_at`).  `validateOk` abstracts the non-quota
validations of `UploadService.upload_file` (filename, magic-byte file type,
size ceiling, malware scan — all external collaborators); `hashFn` abstracts
SHA-256.  Flow, exactly as in the code: reject with 410 when the status is
"expired" or "cancelled"; write the payload over chunk file
`start / chunk_size_bytes`; advance `uploaded_size_bytes` by the payload
length and set status "uploading"; if the new byte counter reaches
`total_size_bytes`, merge all `ceil(total/chunk)` chunks (`expected_hash` is
passed as `None`), run the final upload (validations, then `check_quota` and
`update_usage` on the merged length), delete the chunk directory, and mark
the session complete; exceptions along the merge path delete the chunk
directory and leave the session in "uploading". -/
def uploadChunk (validateOk : List Nat → Bool) (hashFn : List Nat → Nat)
    (st : UploadChunkState) (start : Nat) (payload : List Nat) :
    UploadOutcome × UploadChunkState :=
  let session := st.session
  if session.status = "expired" ∨ session.status = "cancelled" then
    (.sessionGone session.status, st)
  else
    let chunkNumber := start / session.chunkSizeBytes
    let store' := setChunk st.chunkStore chunkNumber payload
    let newUploaded := session.uploadedSizeBytes + payload.length
    let session' := { session with
      uploadedSizeBytes := newUploaded, status := "uploading" }
    if session.totalSizeBytes ≤ newUploaded then
      let numChunks :=
        (session.totalSizeBytes + session.chunkSizeBytes - 1) / session.chunkSizeBytes
      match mergeChunks hashFn store' numChunks none with
      | .error _ => (.mergeFailed, { st with session := session', chunkStore := [] })
      | .ok merged =>
        if validateOk merged then
          match (checkQuota st.tenant (merged.length : Int)).1 with
          | .error _ => (.uploadFailed, { st with session := session', chunkStore := [] })
          | .ok _ =>
            let tenant' := (updateUsage st.tenant (merged.length : Int)).2
            (.complete,
              { session := { session' with status := "complete" },
                chunkStore := [], tenant := tenant' })
        else (.uploadFailed, { st with session := session', chunkStore := [] })
    else
      (.uploading newUploaded, { st with session := session', chunkStore := store' })

/-- A chunk submission that is neither rejected nor completing: the payload is
stored under its chunk number, the byte counter advances by the payload
length, and the status becomes "uploading". -/
theorem uploadChunk_accepts (validateOk : List Nat → Bool)
    (hashFn : List Nat → Nat) (st : UploadChunkState) (start : Nat)
    (payload : List Nat)
    (hstatus : ¬ (st.session.status = "expired" ∨ st.session.status = "cancelled"))
    (hsize : st.session.uploadedSizeBytes + payload.length < st.session.totalSizeBytes) :
    uploadChunk validateOk hashFn st start payload =
      (.uploading (st.session.uploadedSizeBytes + payload.length),
        { st with
          session := { st.session with
            uploadedSizeBytes := st.session.uploadedSizeBytes + payload.length,
            status := "uploading" },
          chunkStore :=
            setChunk st.chunkStore (start / st.session.chunkSizeBytes) payload }) := by
  rw [uploadChunk]
  rw [if_neg hstatus, if_neg (by omega)]

/-! ## Claims C3, C4, C5 -/

/-- C3, counterexample.  The claim asserts that re-submitting an
already-accepted byte range with the identical payload is a no-op on
`bytes_received`.  Against a fresh session (`total = 10`, `chunk = 5`,
deadline far in the future) the same 3-byte chunk at offset 0 is submitted
twice: after one submission `uploaded_size_bytes = 3`, after the identical
second submission it is 6, not 3 — the handler adds the payload length
unconditionally and performs no identical-range detection. -/
theorem c3_double_count_counterexample :
    (uploadChunk (fun _ => true) (fun _ => 0)
        ⟨⟨"pending", 0, 10, 5, 999⟩, [], some ⟨0, 100, 0⟩⟩ 0 [7, 7, 7]).2.session.uploadedSizeBytes
      = 3 ∧
    (uploadChunk (fun _ => true) (fun _ => 0)
        (uploadChunk (fun _ => true) (fun _ => 0)
          ⟨⟨"pending", 0, 10, 5, 999⟩, [], some ⟨0, 100, 0⟩⟩ 0 [7, 7, 7]).2
        0 [7, 7, 7]).2.session.uploadedSizeBytes = 6 ∧
    (6 : Nat) ≠ 3 := by
  refine ⟨rfl, rfl, by decide⟩

/-- C3, amended.  `upload_chunk` performs no range bookkeeping at all: every
accepted submission adds the payload length to `uploaded_size_bytes`, so
submitting the same offset with the identical payload twice leaves the
counter at the original value plus twice the payload length (the second write
merely overwrites the same chunk file).  Stated for submissions that do not
reach the completion threshold, so the merge stage is not triggered. -/
theorem c3_resubmission_adds_again (validateOk : List Nat → Bool)
    (hashFn : List Nat → Nat) (st : UploadChunkState) (start : Nat)
    (payload : List Nat)
    (hstatus : ¬ (st.session.status = "expired" ∨ st.session.status = "cancelled"))
    (hsize : st.session.uploadedSizeBytes + 2 * payload.length <
      st.session.totalSizeBytes) :
    (uploadChunk validateOk hashFn
        (uploadChunk validateOk hashFn st start payload).2
        start payload).2.session.uploadedSizeBytes =
      st.session.uploadedSizeBytes + 2 * payload.length := by
  rw [uploadChunk_accepts validateOk hashFn st start payload hstatus (by omega)]
  rw [uploadChunk_accepts validateOk hashFn _ start payload (by simp) (by simp; omega)]
  simp
  omega

/-- C3 witness: the amended double-count law applied to the concrete fresh
session of the counterexample. -/
theorem c3_resubmission_adds_again_witness :
    (uploadChunk (fun _ => true) (fun _ => 0)
        (uploadChunk (fun _ => true) (fun _ => 0)
          ⟨⟨"pending", 0, 10, 5, 999⟩, [], some ⟨0, 100, 0⟩⟩ 0 [7, 7, 7]).2
        0 [7, 7, 7]).2.session.uploadedSizeBytes = 0 + 2 * 3 :=
  c3_resubmission_adds_again (fun _ => true) (fun _ => 0)
    ⟨⟨"pending", 0, 10, 5, 999⟩, [], some ⟨0, 100, 0⟩⟩ 0 [7, 7, 7]
    (by decide) (by decide)

/-- C4, counterexample.  The claim asserts that a session whose `expires_at`
deadline lies before the current time rejects chunk submissions with
`SessionExpired`.  Take a session with `expires_at = 0`, current time 5, whose
status is still "uploading" (the sweeper has not run yet): the handler — which
never consults the clock — accepts the chunk, returns the progress response,
and advances `uploaded_size_bytes` from 0 to 3. -/
theorem c4_deadline_not_checked_counterexample :
    (⟨⟨"uploading", 0, 10, 5, 0⟩, [], some ⟨0, 100, 0⟩⟩ :
        UploadChunkState).session.expiresAt < 5 ∧
    (uploadChunk (fun _ => true) (fun _ => 0)
        ⟨⟨"uploading", 0, 10, 5, 0⟩, [], some ⟨0, 100, 0⟩⟩ 0 [7, 7, 7]).1 =
      .uploading 3 ∧
    (uploadChunk (fun _ => true) (fun _ => 0)
        ⟨⟨"uploading", 0, 10, 5, 0⟩, [], some ⟨0, 100, 0⟩⟩ 0 [7, 7, 7]).2.session.uploadedSizeBytes
      = 3 := by
  refine ⟨by decide, rfl, rfl⟩

/-- C4, amended.  `upload_chunk` rejects a submission if and only if the
session's recorded status is already "expired" or "cancelled" (the deadline
itself is never compared against the clock — a past-deadline session that the
sweeper has not yet marked still accepts chunks); on such a rejection the
handler returns 410 immediately and the whole state — `uploaded_size_bytes`,
the chunk store, and the tenant's quota row — is unchanged. -/
theorem c4_terminal_status_rejected (validateOk : List Nat → Bool)
    (hashFn : List Nat → Nat) (st : UploadChunkState) (start : Nat)
    (payload : List Nat)
    (hstatus : st.session.status = "expired" ∨ st.session.status = "cancelled") :
    uploadChunk validateOk hashFn st start payload =
      (.sessionGone st.session.status, st) := by
  rw [uploadChunk, if_pos hstatus]

/-- C4 witness: the rejection law applied to a concrete session already marked
"expired"; the state, including byte counter and quota row, is returned
untouched. -/
theorem c4_terminal_status_rejected_witness :
    uploadChunk (fun _ => true) (fun _ => 0)
        ⟨⟨"expired", 4, 10, 5, 0⟩, [(0, [1])], some ⟨0, 100, 0⟩⟩ 3 [9, 9] =
      (.sessionGone "expired",
        ⟨⟨"expired", 4, 10, 5, 0⟩, [(0, [1])], some ⟨0, 100, 0⟩⟩) :=
  c4_terminal_status_rejected (fun _ => true) (fun _ => 0)
    ⟨⟨"expired", 4, 10, 5, 0⟩, [(0, [1])], some ⟨0, 100, 0⟩⟩ 3 [9, 9]
    (Or.inl rfl)

/-- C5: evaluation at the failing input.  The claim (and `merge_chunks`' own
docstring, "Validates the final file size and content hash", and the unit
test named `test_merge_chunks_validates_size`) require assembly to fail with
`IncompleteAssembly` when the final artifact's length differs from the
declared `total_size`.  The code has no such check: `merge_chunks` does not
even receive the declared size, and `upload_chunk` passes
`expected_hash=None`, so for a session with declared `total_size = 5` whose
store holds a single 3-byte chunk (`num_chunks = 1`) the merge succeeds and
returns a 3-byte artifact, after which the session is marked complete. -/
theorem c5_merge_ignores_declared_size :
    mergeChunks (fun _ => 0) [(0, [1, 2, 3])] 1 none = .ok [1, 2, 3] ∧
    ([1, 2, 3] : List Nat).length = 3 ∧ (3 : Nat) ≠ 5 := by
  refine ⟨rfl, rfl, by decide⟩

/-! ## Expiry sweeper (cleanup_tasks.py, upload_session_repository.py) -/

/-- The condition of `UploadSessionRepository.get_expired_sessions`:
`expires_at < now` and status in `["pending", "uploading"]`. -/
def isExpiredTarget (now : Nat) (s : UploadSessionRec) : Bool :=
  decide (s.expiresAt < now) &&
    (s.status = "pending" || s.status = "uploading")

/-- `get_expired_sessions`: the sessions matching the expiry condition. -/
def getExpiredSessions (now : Nat) (sessions : List (Nat × UploadSessionRec)) :
    List (Nat × UploadSessionRec) :=
  sessions.filter (fun p => isExpiredTarget now p.2)

/-- `UploadSessionRepository.mark_expired(session_id)`: the SQL UPDATE sets
`status = "expired"` on every row with that session id. -/
def markExpired (sessions : List (Nat × UploadSessionRec)) (sid : Nat) :
    List (Nat × UploadSessionRec) :=
  sessions.map (fun p =>
    if p.1 = sid then (p.1, { p.2 with status := "expired" }) else p)

/-- The state the sweeper acts on: the `upload_sessions` table, the set of
session ids that still have a chunk directory under `upload_dir/tmp`, and the
tenant's quota row. -/
structure SweepState where
  sessions : List (Nat × UploadSessionRec)
  chunkDirs : List Nat
  tenant : Option Tenant
deriving DecidableEq

/-- `_cleanup_expired_sessions_async`: fetch the expired sessions, then for
each one mark it expired and delete its chunk directory.  The function never
touches the tenants table — no quota column is read or written anywhere in
`cleanup_tasks.py`. -/
def cleanupExpiredSessions (now : Nat) (st : SweepState) : SweepState :=
  (getExpiredSessions now st.sessions).foldl
    (fun acc p =>
      { acc with
        sessions := markExpired acc.sessions p.1,
        chunkDirs := acc.chunkDirs.filter (fun d => d ≠ p.1) })
    st

/-- The sweeper's fold, characterized pointwise: a session row is set to
"expired" exactly when its id occurs in the processed work list, a chunk
directory survives exactly when its id does not, and the tenant row passes
through untouched. -/
theorem sweep_foldl_spec (todo : List (Nat × UploadSessionRec))
    (st : SweepState) :
    (todo.foldl
        (fun acc p =>
          { acc with
            sessions := markExpired acc.sessions p.1,
            chunkDirs := acc.chunkDirs.filter (fun d => d ≠ p.1) })
        st) =
      { sessions := st.sessions.map (fun p =>
          if (todo.map Prod.fst).contains p.1 then
            (p.1, { p.2 with status := "expired" })
          else p),
        chunkDirs := st.chunkDirs.filter
          (fun d => ¬ (todo.map Prod.fst).contains d),
        tenant := st.tenant } := by
  induction todo generalizing st with
  | nil =>
    cases st with
    | mk sessions chunkDirs tenant => simp
  | cons q rest ih =>
    rw [List.foldl_cons, ih]
    congr 1
    · simp only [markExpired, List.map_map]
      apply List.map_congr_left
      intro p _
      simp only [Function.comp_apply, List.map_cons, List.contains_cons]
      by_cases h1 : p.1 = q.1
      · simp only [h1, eq_self_iff_true, if_true, beq_self_eq_true, Bool.true_or]
        split <;> rfl
      · have hb : (p.1 == q.1) = false := beq_eq_false_iff_ne.mpr h1
        simp only [if_neg h1, hb, Bool.false_or]
    · rw [List.filter_filter]
      apply List.filter_congr
      intro d _
      simp only [List.map_cons, List.contains_cons]
      by_cases h1 : d = q.1
      · simp [h1]
      · have hb : (d == q.1) = false := beq_eq_false_iff_ne.mpr h1
        by_cases h2 : (rest.map Prod.fst).contains d <;> simp [h1, h2, hb]

/-- After one sweeper pass nothing matches the expiry condition any more:
every session the pass touched now has status "expired", and every session it
skipped already failed the condition. -/
theorem getExpired_after_cleanup (now : Nat) (st : SweepState) :
    getExpiredSessions now (cleanupExpiredSessions now st).sessions = [] := by
  rw [cleanupExpiredSessions, sweep_foldl_spec, getExpiredSessions,
    List.filter_eq_nil_iff]
  intro p hp
  rcases List.mem_map.mp hp with ⟨q, hq, hpq⟩
  by_cases hk : ((getExpiredSessions now st.sessions).map Prod.fst).contains q.1
  · rw [if_pos hk] at hpq
    subst hpq
    simp only [isExpiredTarget, Bool.and_eq_true, Bool.or_eq_true,
      decide_eq_true_eq]
    rintro ⟨-, h | h⟩ <;> exact absurd h (by decide)
  · rw [if_neg hk] at hpq
    subst hpq
    intro hcnd
    apply hk
    apply List.elem_eq_true_of_mem
    exact List.mem_map.mpr ⟨q, List.mem_filter.mpr ⟨hq, hcnd⟩, rfl⟩

/-- Running the sweeper pass twice at the same instant is the same as running
it once. -/
theorem cleanup_expired_idem (now : Nat) (st : SweepState) :
    cleanupExpiredSessions now (cleanupExpiredSessions now st) =
      cleanupExpiredSessions now st := by
  conv_lhs => rw [cleanupExpiredSessions]
  rw [getExpired_after_cleanup, List.foldl_nil]

/-! ## Claim C6 -/

/-- C6, counterexample.  The claim asserts that one sweeper pass releases the
expired session's quota reservation unconverted.  Take a session (id 1,
declared size 10) past its deadline with, per the spec's ledger, 10 reserved
bytes standing for it on the tenant row: the sweeper pass marks the session
expired and deletes its chunk directory, but returns the tenant row — in
particular its reservation counter, still 10 — byte-for-byte unchanged.  A
release (unconverted) would have brought the reserved counter to 0;
`_cleanup_expired_sessions_async` contains no call into the quota layer at
all. -/
theorem c6_no_quota_release_counterexample :
    cleanupExpiredSessions 5
        ⟨[(1, ⟨"uploading", 4, 10, 5, 0⟩)], [1], some ⟨0, 100, 10⟩⟩ =
      ⟨[(1, ⟨"expired", 4, 10, 5, 0⟩)], [], some ⟨0, 100, 10⟩⟩ ∧
    (some ⟨0, 100, 10⟩ : Option Tenant) ≠ some ⟨0, 100, 0⟩ := by
  refine ⟨rfl, by decide⟩

/-- C6, amended.  One sweeper pass transitions every session whose deadline
has passed and whose status is "pending" or "uploading" (the spec's
`receiving`) to "expired" and discards its chunk directory; it performs no
quota mutation whatsoever (the code maintains no reservations, so there is
nothing to release); sessions already transitioned are skipped, and a second
pass at the same instant changes nothing. -/
theorem c6_sweeper_behavior (now : Nat) (st : SweepState) (sid : Nat)
    (s : UploadSessionRec) (hmem : (sid, s) ∈ st.sessions)
    (hdead : s.expiresAt < now)
    (hstatus : s.status = "pending" ∨ s.status = "uploading") :
    (sid, { s with status := "expired" }) ∈
        (cleanupExpiredSessions now st).sessions ∧
    sid ∉ (cleanupExpiredSessions now st).chunkDirs ∧
    (cleanupExpiredSessions now st).tenant = st.tenant ∧
    cleanupExpiredSessions now (cleanupExpiredSessions now st) =
      cleanupExpiredSessions now st := by
  have hcond : isExpiredTarget now s = true := by
    simp only [isExpiredTarget, Bool.and_eq_true, Bool.or_eq_true,
      decide_eq_true_eq]
    exact ⟨hdead, hstatus⟩
  have hkey : ((getExpiredSessions now st.sessions).map Prod.fst).contains sid = true := by
    apply List.elem_eq_true_of_mem
    exact List.mem_map.mpr
      ⟨(sid, s), List.mem_filter.mpr ⟨hmem, hcond⟩, rfl⟩
  refine ⟨?_, ?_, ?_, cleanup_expired_idem now st⟩
  · rw [cleanupExpiredSessions, sweep_foldl_spec]
    have hmap := List.mem_map_of_mem (f := fun p : Nat × UploadSessionRec =>
      if ((getExpiredSessions now st.sessions).map Prod.fst).contains p.1 then
        (p.1, { p.2 with status := "expired" })
      else p) hmem
    simp only [hkey, eq_self_iff_true, if_true] at hmap
    exact hmap
  · rw [cleanupExpiredSessions, sweep_foldl_spec]
    intro h
    have h2 := (List.mem_filter.mp h).2
    rw [hkey] at h2
    simp at h2
  · rw [cleanupExpiredSessions, sweep_foldl_spec]

/-- C6 witness: the sweeper law applied to the concrete past-deadline
"uploading" session of the counterexample. -/
theorem c6_sweeper_behavior_witness :
    (1, ({ status := "expired", uploadedSizeBytes := 4, totalSizeBytes := 10,
           chunkSizeBytes := 5, expiresAt := 0 } : UploadSessionRec)) ∈
      (cleanupExpiredSessions 5
        ⟨[(1, ⟨"uploading", 4, 10, 5, 0⟩)], [1], some ⟨0, 100, 10⟩⟩).sessions :=
  (c6_sweeper_behavior 5
    ⟨[(1, ⟨"uploading", 4, 10, 5, 0⟩)], [1], some ⟨0, 100, 10⟩⟩ 1
    ⟨"uploading", 4, 10, 5, 0⟩ (by simp) (by decide) (Or.inr rfl)).1

/-! ## Segmentation engine (chunking_service.py)

Text is `List Char`.  `tiktoken` is an external collaborator; it is modelled
as the identity character-level tokenizer (one token per character), under
which `encode` and `decode` are the identity and token counting is `length`.
This is a monotonic token-counting function, the class for which the spec
requires the engine's invariants to hold. -/

/-- Python's whitespace class as used by `\s`, `str.strip()` and blank-line
detection (space, tab, newline, carriage return, vertical tab, form feed). -/
def isPySpace (c : Char) : Bool :=
  c = ' ' ∨ c = '\t' ∨ c = '\n' ∨ c = '\r' ∨ c = Char.ofNat 11 ∨ c = Char.ofNat 12

/-- Sentence-terminal punctuation, the `[.!?]` class of
`ChunkingService._split_large_chunk`. -/
def isSentEnd (c : Char) : Bool := c = '.' ∨ c = '!' ∨ c = '?'

/-- Python `str.strip()`: drop leading and trailing whitespace. -/
def pyStrip (cs : List Char) : List Char :=
  ((cs.dropWhile isPySpace).reverse.dropWhile isPySpace).reverse

/-- `ChunkingService.count_tokens`: `len(self.encoder.encode(text))`; under
the identity tokenizer this is the character count. -/
def countTokens (text : List Char) : Nat := text.length

/-- The paragraph separator / merge separator `"\n\n"`. -/
def sepNN : List Char := ['\n', '\n']

/-- Single pass implementing `re.split(r"\n\s*\n", text)` as composed with
the strip-and-drop-empties that immediately follows it in
`split_by_semantic_boundaries`.  `ws` is the pending maximal whitespace run;
when a non-whitespace character ends a run containing at least two newlines,
the run was a `\n\s*\n` separator (greedy `\s*` extends a match to the last
newline of the run; the run's leading and trailing non-newline whitespace is
stripped from the adjacent pieces anyway), otherwise the run belongs to the
current paragraph. -/
def splitParasGo : List Char → List Char → List Char → List (List Char)
  | [], ws, acc => [acc ++ ws]
  | c :: rest, ws, acc =>
    if isPySpace c then
      splitParasGo rest (ws ++ [c]) acc
    else if 2 ≤ ws.count '\n' then
      acc :: splitParasGo rest [] [c]
    else
      splitParasGo rest [] (acc ++ ws ++ [c])

/-- `ChunkingService.split_by_semantic_boundaries`: split on blank lines,
strip each piece, drop the empty ones. -/
def splitBySemanticBoundaries (text : List Char) : List (List Char) :=
  ((splitParasGo text [] []).map pyStrip).filter (fun p => p ≠ [])

/-- Single pass implementing `re.split(r"([.!?]+\s+)", text)` with its
capturing group, so the output alternates text pieces and the separators that
matched.  `run` is the pending `[.!?]+` run and `ws` the pending `\s+` run
following it; a match completes when a non-whitespace character (or the end
of input) arrives while both are non-empty. -/
def sentSplitGo : List Char → List Char → List Char → List Char → List (List Char)
  | [], acc, run, ws =>
    if run ≠ [] ∧ ws ≠ [] then [acc, run ++ ws, []]
    else [acc ++ run]
  | c :: rest, acc, run, ws =>
    if isSentEnd c then
      if run ≠ [] ∧ ws ≠ [] then
        acc :: (run ++ ws) :: sentSplitGo rest [] [c] []
      else if run ≠ [] then
        sentSplitGo rest acc (run ++ [c]) []
      else
        sentSplitGo rest acc [c] []
    else if isPySpace c then
      if run ≠ [] then
        sentSplitGo rest acc run (ws ++ [c])
      else
        sentSplitGo rest (acc ++ [c]) [] []
    else
      if run ≠ [] ∧ ws ≠ [] then
        acc :: (run ++ ws) :: sentSplitGo rest [c] [] []
      else
        sentSplitGo rest (acc ++ run ++ [c]) [] []

/-- The `clean_sentences` loop of `_split_large_chunk`: stepping through the
alternating piece/separator list two at a time, re-attaching each separator
to the piece before it. -/
def rejoinSentences : List (List Char) → List (List Char)
  | [] => []
  | [a] => [a]
  | a :: b :: rest => (a ++ b) :: rejoinSentences rest

/-- Python `" ".join(parts)`. -/
def joinWithSpace (parts : List (List Char)) : List Char :=
  List.intercalate [' '] parts

/-- One iteration of `_split_large_chunk`'s sentence-grouping loop.  State:
finished chunks, the current sentence group, and the running token total of
the current group (the sum of the sentences' own token counts — the spaces
`" ".join` later inserts are not counted). -/
def groupStep (target : Nat) (st : List (List Char) × List (List Char) × Nat)
    (s : List Char) : List (List Char) × List (List Char) × Nat :=
  let stoks := countTokens s
  if target < st.2.2 + stoks ∧ st.2.1 ≠ [] then
    (st.1 ++ [joinWithSpace st.2.1], [s], stoks)
  else
    (st.1, st.2.1 ++ [s], st.2.2 + stoks)

/-- The grouping phase of `_split_large_chunk`, including the final flush of
the remaining group. -/
def groupSentences (target : Nat) (sentences : List (List Char)) :
    List (List Char) :=
  let st := sentences.foldl (groupStep target) ([], [], 0)
  if st.2.1 ≠ [] then st.1 ++ [joinWithSpace st.2.1] else st.1

/-- `ChunkingService._split_large_chunk`: split on sentence boundaries,
re-attach separators, group sentences into chunks whose accumulated token
counts stay within the target where possible. -/
def splitLargeChunk (target : Nat) (text : List Char) : List (List Char) :=
  groupSentences target (rejoinSentences (sentSplitGo text [] [] []))

/-- One iteration of `ChunkingService.enforce_token_limits`: an over-target
chunk is sentence-split; an under-minimum chunk is merged into the previous
result chunk when the combination stays within the target, else kept
standalone; anything else passes through. -/
def enforceStep (target minSize : Nat) (result : List (List Char))
    (chunk : List Char) : List (List Char) :=
  let tc := countTokens chunk
  if target < tc then
    result ++ splitLargeChunk target chunk
  else if tc < minSize ∧ result ≠ [] then
    let last := result.getLast?.getD []
    let combined := last ++ sepNN ++ chunk
    if countTokens combined ≤ target then result.dropLast ++ [combined]
    else result ++ [chunk]
  else
    result ++ [chunk]

/-- `ChunkingService.enforce_token_limits`. -/
def enforceTokenLimits (target minSize : Nat) (chunks : List (List Char)) :
    List (List Char) :=
  chunks.foldl (enforceStep target minSize) []

/-- `ChunkingService._get_last_n_tokens(text, n)`: return `text` whole when
it has at most `n` tokens, else decode the last `n` tokens.  Python slicing
makes `tokens[-0:]` the whole list, so for `n = 0` the entire text is
returned, not the empty suffix. -/
def getLastNTokens (text : List Char) (n : Nat) : List Char :=
  if countTokens text ≤ n then text
  else if n = 0 then text
  else text.drop (countTokens text - n)

/-- The loop body of `ChunkingService.add_overlap`: element `i` of the result
(for `i ≥ 1`) is the trailing tokens of pre-overlap chunk `i-1`, a blank
line, then pre-overlap chunk `i`. -/
def overlapTail (n : Nat) : List (List Char) → List (List Char)
  | p :: c :: rest => (getLastNTokens p n ++ sepNN ++ c) :: overlapTail n (c :: rest)
  | _ => []

/-- `ChunkingService.add_overlap`: lists of at most one chunk are returned
unchanged (the `len(chunks) <= 1` early return); otherwise the first chunk
keeps no prefix and every later chunk gets the trailing-token prefix of its
predecessor. -/
def addOverlap (n : Nat) : List (List Char) → List (List Char)
  | [] => []
  | [c] => [c]
  | c0 :: c1 :: rest => c0 :: overlapTail n (c0 :: c1 :: rest)

/-- `ChunkData` (parsing_result.py), restricted to the fields
`chunk_document` populates: `chunk_index`, `content`, `chunk_type` (always
"paragraph") and `token_count` (counted on the final, post-overlap text). -/
structure ChunkData where
  chunk_index : Nat
  content : List Char
  chunk_type : String
  token_count : Nat
deriving DecidableEq, Repr

/-- The default used with `List.getD` over segment lists. -/
def noChunk : ChunkData := ⟨0, [], "paragraph", 0⟩

/-- The `enumerate`-and-wrap loop at the end of `chunk_document`. -/
def enumChunks (start : Nat) : List (List Char) → List ChunkData
  | [] => []
  | c :: cs => ⟨start, c, "paragraph", countTokens c⟩ :: enumChunks (start + 1) cs

/-- `ChunkingService.chunk_document(text)` with the service's effective
attribute values `target = chunk_size_tokens`, `n = chunk_overlap_tokens`,
`minSize = min_chunk_size_tokens`: empty or whitespace-only text yields no
segments; otherwise split on semantic boundaries, enforce token limits, add
overlap, and wrap with indices and (post-overlap) token counts. -/
def chunkDocument (target n minSize : Nat) (text : List Char) :
    List ChunkData :=
  if text = [] ∨ pyStrip text = [] then []
  else
    enumChunks 0
      (addOverlap n (enforceTokenLimits target minSize
        (splitBySemanticBoundaries text)))

/-! ## Structural lemmas about the segmentation engine -/

/-- Joining a single part inserts no spaces. -/
theorem joinWithSpace_singleton (x : List Char) : joinWithSpace [x] = x := by
  simp [joinWithSpace, List.intercalate]

/-- The sentence scanner leaves text free of sentence-terminal punctuation in
one piece. -/
theorem sentSplitGo_no_punct (text : List Char) :
    (∀ c ∈ text, isSentEnd c = false) →
    ∀ acc, sentSplitGo text acc [] [] = [acc ++ text] := by
  induction text with
  | nil => intro _ acc; simp [sentSplitGo]
  | cons c rest ih =>
    intro h acc
    have hc : isSentEnd c = false := h c (List.mem_cons_self c rest)
    have hrest : ∀ x ∈ rest, isSentEnd x = false := fun x hx =>
      h x (List.mem_cons_of_mem c hx)
    rw [sentSplitGo]
    rw [if_neg (by simp [hc])]
    by_cases hs : isPySpace c
    · rw [if_pos hs]
      rw [if_neg (by simp)]
      rw [ih hrest (acc ++ [c])]
      simp
    · rw [if_neg hs]
      rw [if_neg (by simp)]
      rw [ih hrest (acc ++ [] ++ [c])]
      simp

/-- Grouping a single sentence yields it back unchanged. -/
theorem groupSentences_singleton (target : Nat) (t : List Char) :
    groupSentences target [t] = [t] := by
  simp [groupSentences, groupStep, joinWithSpace_singleton]

/-- Every chunk emitted by `enforce_token_limits` is within the target unless
it came out of the sentence-splitting of an over-target block. -/
theorem enforce_foldl_good (target minSize : Nat)
    (blocks allowed : List (List Char)) (acc : List (List Char))
    (hsub : ∀ b ∈ blocks, b ∈ allowed)
    (hacc : ∀ c ∈ acc, countTokens c ≤ target ∨
      ∃ b, b ∈ allowed ∧ target < countTokens b ∧ c ∈ splitLargeChunk target b) :
    ∀ c ∈ blocks.foldl (enforceStep target minSize) acc,
      countTokens c ≤ target ∨
      ∃ b, b ∈ allowed ∧ target < countTokens b ∧ c ∈ splitLargeChunk target b := by
  induction blocks generalizing acc with
  | nil =>
    rw [List.foldl_nil]
    exact hacc
  | cons b bs ih =>
    rw [List.foldl_cons]
    apply ih
    · exact fun x hx => hsub x (List.mem_cons_of_mem b hx)
    · intro c hc
      rw [enforceStep] at hc
      by_cases h1 : target < countTokens b
      · rw [if_pos h1] at hc
        rcases List.mem_append.mp hc with h | h
        · exact hacc c h
        · exact Or.inr ⟨b, hsub b (List.mem_cons_self b bs), h1, h⟩
      · rw [if_neg h1] at hc
        by_cases h2 : countTokens b < minSize ∧ acc ≠ []
        · rw [if_pos h2] at hc
          by_cases h3 : countTokens (acc.getLast?.getD [] ++ sepNN ++ b) ≤ target
          · rw [if_pos h3] at hc
            rcases List.mem_append.mp hc with h | h
            · exact hacc c (List.dropLast_subset acc h)
            · rcases List.mem_singleton.mp h with rfl
              exact Or.inl h3
          · rw [if_neg h3] at hc
            rcases List.mem_append.mp hc with h | h
            · exact hacc c h
            · rcases List.mem_singleton.mp h with rfl
              exact Or.inl (by omega)
        · rw [if_neg h2] at hc
          rcases List.mem_append.mp hc with h | h
          · exact hacc c h
          · rcases List.mem_singleton.mp h with rfl
            exact Or.inl (by omega)

/-- `enumChunks` preserves length. -/
theorem enumChunks_length (l : List (List Char)) :
    ∀ k, (enumChunks k l).length = l.length := by
  induction l with
  | nil => intro k; rfl
  | cons c cs ih => intro k; simp [enumChunks, ih]

/-- Element `i` of `enumChunks k l` wraps element `i` of `l` with index
`k + i` and its token count. -/
theorem enumChunks_getD (l : List (List Char)) :
    ∀ k i, i < l.length →
      (enumChunks k l).getD i noChunk =
        ⟨k + i, l.getD i [], "paragraph", countTokens (l.getD i [])⟩ := by
  induction l with
  | nil => intro k i hi; simp at hi
  | cons c cs ih =>
    intro k i hi
    cases i with
    | zero => simp [enumChunks]
    | succ j =>
      have hj : j < cs.length := by simpa using hi
      rw [enumChunks]
      simp only [List.getD_cons_succ]
      rw [ih (k + 1) j hj]
      congr 1
      omega

/-- The overlap loop produces one element per adjacent pair. -/
theorem overlapTail_length (n : Nat) (cs : List (List Char)) :
    (overlapTail n cs).length = cs.length - 1 := by
  induction cs with
  | nil => rfl
  | cons p rest ih =>
    cases rest with
    | nil => rfl
    | cons c rest2 =>
      rw [overlapTail]
      simp only [List.length_cons]
      rw [ih]
      simp

/-- `add_overlap` preserves the number of chunks. -/
theorem addOverlap_length (n : Nat) (cs : List (List Char)) :
    (addOverlap n cs).length = cs.length := by
  match cs with
  | [] => rfl
  | [c] => rfl
  | c0 :: c1 :: rest =>
    rw [addOverlap]
    simp only [List.length_cons]
    rw [overlapTail_length]
    simp

/-- Element `j` of the overlap loop's output is built from pre-overlap chunks
`j` and `j + 1`. -/
theorem overlapTail_getD (n : Nat) (cs : List (List Char)) :
    ∀ j, j + 1 < cs.length →
      (overlapTail n cs).getD j [] =
        getLastNTokens (cs.getD j []) n ++ sepNN ++ cs.getD (j + 1) [] := by
  induction cs with
  | nil => intro j hj; simp at hj
  | cons p rest ih =>
    intro j hj
    cases rest with
    | nil => simp at hj
    | cons c rest2 =>
      rw [overlapTail]
      cases j with
      | zero => simp
      | succ m =>
        have hm : m + 1 < (c :: rest2).length := by simpa using hj
        simp only [List.getD_cons_succ]
        exact ih m hm

/-- The first chunk of `add_overlap` is the first pre-overlap chunk. -/
theorem addOverlap_getD_zero (n : Nat) (cs : List (List Char))
    (h : 0 < cs.length) :
    (addOverlap n cs).getD 0 [] = cs.getD 0 [] := by
  match cs with
  | [] => rfl
  | [c] => rfl
  | c0 :: c1 :: rest => rfl

/-- Chunk `i ≥ 1` of `add_overlap` is the trailing tokens of pre-overlap
chunk `i - 1`, a blank line, then pre-overlap chunk `i`. -/
theorem addOverlap_getD_succ (n : Nat) (cs : List (List Char)) (i : Nat)
    (hi : 1 ≤ i) (hlen : i < cs.length) :
    (addOverlap n cs).getD i [] =
      getLastNTokens (cs.getD (i - 1) []) n ++ sepNN ++ cs.getD i [] := by
  match cs with
  | [] => simp at hlen
  | [c] => simp at hlen; omega
  | c0 :: c1 :: rest =>
    rw [addOverlap]
    obtain ⟨j, rfl⟩ : ∃ j, i = j + 1 := ⟨i - 1, by omega⟩
    simp only [List.getD_cons_succ]
    have := overlapTail_getD n (c0 :: c1 :: rest) j (by simpa using hlen)
    rw [this]
    simp

/-- For a positive token budget, the overlap prefix is a suffix of the
previous chunk of length `min n (token count)`. -/
theorem getLastNTokens_spec (l : List Char) (n : Nat) (hn : 1 ≤ n) :
    getLastNTokens l n <:+ l ∧
      countTokens (getLastNTokens l n) = min n (countTokens l) := by
  rw [getLastNTokens]
  by_cases h1 : countTokens l ≤ n
  · rw [if_pos h1]
    exact ⟨List.suffix_refl l, by omega⟩
  · rw [if_neg h1, if_neg (by omega)]
    refine ⟨List.drop_suffix _ _, ?_⟩
    simp only [countTokens] at h1 ⊢
    rw [List.length_drop]
    omega

/-! ## Claims C7, C8, C9 -/

/-- C7, counterexample.  The claim asserts that every segment except the last
has a final recorded token size of at most the target, barring only the
unsplittable-block fallback.  With `target = 2`, `overlap = 1`, `min = 1` and
the three two-token blocks of "ab\n\ncd\n\nef" (no block exceeds the target,
so no fallback is involved), segment 1 — not the last — records token count
5 > 2: the recorded `token_count` is measured on the post-overlap text, which
contains the prepended overlap token and the two blank-line separator
characters on top of the at-most-target pre-overlap text. -/
theorem c7_overlap_exceeds_target_counterexample :
    chunkDocument 2 1 1 ("ab\n\ncd\n\nef".toList) =
      [⟨0, "ab".toList, "paragraph", 2⟩,
       ⟨1, "b\n\ncd".toList, "paragraph", 5⟩,
       ⟨2, "d\n\nef".toList, "paragraph", 5⟩] ∧
    ¬ (5 : Nat) ≤ 2 ∧
    (splitBySemanticBoundaries ("ab\n\ncd\n\nef".toList)).all
      (fun b => countTokens b ≤ 2) = true := by
  refine ⟨by decide, by decide, by decide⟩

/-- C7, amended.  The target bound holds for the pre-overlap segment texts:
every chunk produced by `enforce_token_limits` either has token size at most
the target or came out of `_split_large_chunk` applied to an over-target
block (the sentence-splitting fallback, whose pieces may stay oversized when
a single sentence exceeds the target).  The final recorded sizes are
measured after the overlap pass and additionally include the prepended
overlap tokens and blank-line separator, so segments after the first may
exceed the target by up to `overlap + 2` tokens. -/
theorem c7_preoverlap_size_bound (target minSize : Nat) (text : List Char)
    (c : List Char)
    (hc : c ∈ enforceTokenLimits target minSize (splitBySemanticBoundaries text)) :
    countTokens c ≤ target ∨
      ∃ b, b ∈ splitBySemanticBoundaries text ∧ target < countTokens b ∧
        c ∈ splitLargeChunk target b :=
  enforce_foldl_good target minSize (splitBySemanticBoundaries text)
    (splitBySemanticBoundaries text) [] (fun _ h => h)
    (fun _ h => absurd h (List.not_mem_nil _)) c hc

/-- C7 witness: the pre-overlap bound applied to the first chunk of a
concrete two-block document. -/
theorem c7_preoverlap_size_bound_witness :
    countTokens ("ab".toList) ≤ 2 ∨
      ∃ b, b ∈ splitBySemanticBoundaries ("ab\n\ncd".toList) ∧
        2 < countTokens b ∧ ("ab".toList) ∈ splitLargeChunk 2 b :=
  c7_preoverlap_size_bound 2 1 ("ab\n\ncd".toList) ("ab".toList) (by decide)

/-- C8, counterexample.  The claim asserts that each segment after the first
begins with exactly the trailing `overlap_size` tokens of the preceding
pre-overlap segment.  With `overlap_size = 0` (the settings field
`chunk_overlap_tokens` admits 0) the trailing zero tokens are the empty
suffix, yet the code prepends the ENTIRE preceding segment: Python's
`tokens[-0:]` slices the whole list, so `_get_last_n_tokens(text, 0)`
returns `text`.  For blocks "ab" and "cd", segment 1 becomes "ab\n\ncd" —
neither "\n\ncd" (empty prefix plus separator) nor "cd" (no prefix at
all). -/
theorem c8_zero_overlap_counterexample :
    chunkDocument 2 0 1 ("ab\n\ncd".toList) =
      [⟨0, "ab".toList, "paragraph", 2⟩,
       ⟨1, "ab\n\ncd".toList, "paragraph", 6⟩] ∧
    ("ab\n\ncd".toList ≠ "\n\ncd".toList) ∧
    ("ab\n\ncd".toList ≠ "cd".toList) := by
  refine ⟨by decide, by decide, by decide⟩

/-- C8, amended.  For a positive overlap budget `n` (settings default 50; the
constructor coalesces a passed 0 to the settings default), each segment after
the first is exactly `_get_last_n_tokens` of the preceding pre-overlap
segment — the trailing suffix of `min n (token count)` tokens — followed by
the blank-line separator and the segment's own pre-overlap text, and the
first segment is the first pre-overlap chunk unchanged; when `n = 0` the
whole preceding segment is prepended instead (Python `tokens[-0:]`). -/
theorem c8_overlap_structure (target n minSize : Nat) (text : List Char)
    (i : Nat) (hn : 1 ≤ n) (hi : 1 ≤ i)
    (hlen : i < (chunkDocument target n minSize text).length) :
    ((chunkDocument target n minSize text).getD i noChunk).content =
      getLastNTokens ((enforceTokenLimits target minSize
          (splitBySemanticBoundaries text)).getD (i - 1) []) n
        ++ sepNN ++
        (enforceTokenLimits target minSize
          (splitBySemanticBoundaries text)).getD i [] ∧
    ((chunkDocument target n minSize text).getD 0 noChunk).content =
      (enforceTokenLimits target minSize (splitBySemanticBoundaries text)).getD 0 [] ∧
    getLastNTokens ((enforceTokenLimits target minSize
        (splitBySemanticBoundaries text)).getD (i - 1) []) n <:+
      (enforceTokenLimits target minSize (splitBySemanticBoundaries text)).getD (i - 1) [] ∧
    countTokens (getLastNTokens ((enforceTokenLimits target minSize
        (splitBySemanticBoundaries text)).getD (i - 1) []) n) =
      min n (countTokens ((enforceTokenLimits target minSize
        (splitBySemanticBoundaries text)).getD (i - 1) [])) := by
  by_cases hg : text = [] ∨ pyStrip text = []
  · rw [chunkDocument, if_pos hg] at hlen
    simp at hlen
  · rw [chunkDocument, if_neg hg] at hlen ⊢
    rw [enumChunks_length, addOverlap_length] at hlen
    refine ⟨?_, ?_, (getLastNTokens_spec _ n hn).1, (getLastNTokens_spec _ n hn).2⟩
    · rw [enumChunks_getD _ 0 i (by rw [addOverlap_length]; exact hlen)]
      exact addOverlap_getD_succ n _ i hi hlen
    · rw [enumChunks_getD _ 0 0 (by rw [addOverlap_length]; omega)]
      exact addOverlap_getD_zero n _ (by omega)

/-- C8 witness: the overlap-prefix law applied to segment 1 of the concrete
two-block document "ab\n\ncd" with overlap 1. -/
theorem c8_overlap_structure_witness :
    ((chunkDocument 2 1 1 ("ab\n\ncd".toList)).getD 1 noChunk).content =
      getLastNTokens ((enforceTokenLimits 2 1
          (splitBySemanticBoundaries ("ab\n\ncd".toList))).getD (1 - 1) []) 1
        ++ sepNN ++
        (enforceTokenLimits 2 1
          (splitBySemanticBoundaries ("ab\n\ncd".toList))).getD 1 [] :=
  (c8_overlap_structure 2 1 1 ("ab\n\ncd".toList) 1 (by decide) (by decide)
    (by decide)).1

/-- C9, counterexample.  The claim asserts that a single block larger than
the target with no sentence-terminal punctuation is split at a hard token
boundary rather than emitted oversized.  The four-token punctuation-free
block "abcd" with `target = 2` is emitted as a single segment of recorded
size 4 > 2: `_split_large_chunk` finds no `[.!?]+\s+` boundary and its
grouping loop emits the whole text as one chunk — no hard token-boundary
split exists anywhere in the engine. -/
theorem c9_unsplittable_oversized_counterexample :
    chunkDocument 2 1 1 ("abcd".toList) =
      [⟨0, "abcd".toList, "paragraph", 4⟩] ∧
    ¬ (4 : Nat) ≤ 2 ∧
    ("abcd".toList).all (fun c => !(isSentEnd c)) = true := by
  refine ⟨by decide, by decide, by decide⟩

/-- C9, amended.  A block containing no sentence-terminal punctuation passes
through `_split_large_chunk` whole, whatever the target: the engine performs
no hard token-boundary splitting, so such an over-target block is emitted as
a single oversized segment. -/
theorem c9_no_punctuation_not_split (target : Nat) (text : List Char)
    (h : ∀ c ∈ text, isSentEnd c = false) :
    splitLargeChunk target text = [text] := by
  rw [splitLargeChunk, sentSplitGo_no_punct text h [], List.nil_append]
  exact groupSentences_singleton target text

/-- C9 witness: the no-split law applied to the punctuation-free block
"abcd" at target 2. -/
theorem c9_no_punctuation_not_split_witness :
    splitLargeChunk 2 ("abcd".toList) = ["abcd".toList] :=
  c9_no_punctuation_not_split 2 ("abcd".toList) (by decide)
